import Mathlib

/-!
Shallow embedding of the caching and session subsystem of the repository
(`src/app/caching.py`, `src/app/tools.py`, `src/app/middlewares.py`).

Conventions:
* Python values that flow through the cache are modelled by the inductive
  `PyVal`; Python `None` is `PyVal.none`, and Python truthiness is
  `PyVal.truthy`.
* Python dictionaries are modelled as association lists with first-match
  lookup and replace-on-set semantics.
* Wall-clock time (`time.time()`) is an explicit `Nat` argument `now`.
* Exceptions are modelled with `Except PyErr`; a caught exception branch
  mirrors the source's `try/except` structure.
* The Redis client is modelled as a `RedisState`: a key/value string store,
  a reachability flag, and a trace of the commands that actually reached
  the client (so "performed without contacting the backend" is statable).
-/

/-- Model of the JSON-representable Python values handled by the caches. -/
inductive PyVal where
  | none : PyVal
  | bool : Bool → PyVal
  | int : Int → PyVal
  | str : String → PyVal
  | list : List PyVal → PyVal
  | dict : List (String × PyVal) → PyVal
deriving Repr

/-- Python truthiness for the modelled values (`bool(v)` in the source's
`if value:` / `if not value:` guards). -/
def PyVal.truthy : PyVal → Bool
  | .none => false
  | .bool b => b
  | .int n => n != 0
  | .str s => s ≠ ""
  | .list xs => !xs.isEmpty
  | .dict xs => !xs.isEmpty

/-- Python's `value is None` test. -/
def PyVal.isNone : PyVal → Bool
  | .none => true
  | _ => false

/-- Error values raised by the modelled code paths. -/
inductive PyErr where
  /-- `redis.exceptions.ConnectionError` -/
  | connectionError
  /-- Python `KeyError` (raised by `del d[k]` on a missing key) -/
  | keyError
  /-- `orjson.JSONDecodeError` -/
  | jsonDecodeError
deriving Repr, DecidableEq

/-- First-match association-list lookup: model of Python `d[k]` / `k in d`. -/
def alookup {α : Type} (l : List (String × α)) (k : String) : Option α :=
  match l with
  | [] => Option.none
  | (k', v) :: t => if k' = k then some v else alookup t k

/-- Drops every binding of `k`: model of Python `del d[k]` after the key is
known to be present. -/
def aremove {α : Type} (l : List (String × α)) (k : String) : List (String × α) :=
  match l with
  | [] => []
  | (k', v) :: t => if k' = k then aremove t k else (k', v) :: aremove t k

/-- Model of Python `d[k] = v`: replaces any existing binding of `k`. -/
def aupsert {α : Type} (l : List (String × α)) (k : String) (v : α) :
    List (String × α) :=
  (k, v) :: aremove l k

/-! ## JSON serialization (`src/app/tools.py`, `ORJSONSerializer`)

`encode` renders a `PyVal` as JSON text (model of
`orjson.dumps(value, default=jsonable_encoder).decode()`; string escaping is
not modelled, which is adequate for the escape-free strings used here).
`decode` is a JSON reader (model of `orjson.loads`) that fails with
`jsonDecodeError` on malformed input. -/

mutual
/-- JSON rendering of a `PyVal`. -/
def encodeJson : PyVal → String
  | .none => "null"
  | .bool true => "true"
  | .bool false => "false"
  | .int n => toString n
  | .str s => "\"" ++ s ++ "\""
  | .list xs => "[" ++ encodeArr xs ++ "]"
  | .dict xs => "\x7b" ++ encodeObj xs ++ "\x7d"
def encodeArr : List PyVal → String
  | [] => ""
  | [x] => encodeJson x
  | x :: y :: t => encodeJson x ++ "," ++ encodeArr (y :: t)
def encodeObj : List (String × PyVal) → String
  | [] => ""
  | [(k, v)] => "\"" ++ k ++ "\":" ++ encodeJson v
  | (k, v) :: y :: t => "\"" ++ k ++ "\":" ++ encodeJson v ++ "," ++ encodeObj (y :: t)
end

def quoteChar : Char := Char.ofNat 34
def lbraceChar : Char := Char.ofNat 123
def rbraceChar : Char := Char.ofNat 125

/-- JSON whitespace. -/
def jsonWs (c : Char) : Bool := c = ' ' || c = '\t' || c = '\n' || c = '\r'

def skipWs : List Char → List Char
  | [] => []
  | c :: t => if jsonWs c then skipWs t else c :: t

/-- Reads the remainder of a JSON string literal after its opening quote. -/
def parseStrRest : List Char → String → Except PyErr (String × List Char)
  | [], _ => .error .jsonDecodeError
  | c :: t, acc => if c = quoteChar then .ok (acc, t) else parseStrRest t (acc.push c)

/-- Splits a leading run of decimal digits off a character list. -/
def splitDigits : List Char → (List Char × List Char)
  | [] => ([], [])
  | c :: t =>
    if c.isDigit then
      let (d, r) := splitDigits t
      (c :: d, r)
    else ([], c :: t)

def digitsToNat (ds : List Char) : Nat :=
  ds.foldl (fun a c => a * 10 + (c.toNat - 48)) 0

mutual
/-- Recursive-descent JSON reader (fuel-indexed for termination). -/
def parseVal : Nat → List Char → Except PyErr (PyVal × List Char)
  | 0, _ => .error .jsonDecodeError
  | fuel + 1, cs =>
    match skipWs cs with
    | 'n' :: 'u' :: 'l' :: 'l' :: r => .ok (.none, r)
    | 't' :: 'r' :: 'u' :: 'e' :: r => .ok (.bool true, r)
    | 'f' :: 'a' :: 'l' :: 's' :: 'e' :: r => .ok (.bool false, r)
    | c :: r =>
      if c = quoteChar then
        match parseStrRest r "" with
        | .ok (s, r2) => .ok (.str s, r2)
        | .error e => .error e
      else if c = lbraceChar then
        match skipWs r with
        | d :: r2 =>
          if d = rbraceChar then .ok (.dict [], r2)
          else
            match parseObjItems fuel (d :: r2) with
            | .ok (xs, r3) => .ok (.dict xs, r3)
            | .error e => .error e
        | [] => .error .jsonDecodeError
      else if c = '[' then
        match skipWs r with
        | ']' :: r2 => .ok (.list [], r2)
        | cs2 =>
          match parseArrItems fuel cs2 with
          | .ok (xs, r3) => .ok (.list xs, r3)
          | .error e => .error e
      else if c = '-' then
        match splitDigits r with
        | ([], _) => .error .jsonDecodeError
        | (ds, r2) => .ok (.int (-(digitsToNat ds : Int)), r2)
      else if c.isDigit then
        let (ds, r2) := splitDigits (c :: r)
        .ok (.int (digitsToNat ds), r2)
      else .error .jsonDecodeError
    | [] => .error .jsonDecodeError

def parseArrItems : Nat → List Char → Except PyErr (List PyVal × List Char)
  | 0, _ => .error .jsonDecodeError
  | fuel + 1, cs =>
    match parseVal fuel cs with
    | .error e => .error e
    | .ok (v, r) =>
      match skipWs r with
      | ',' :: r2 =>
        match parseArrItems fuel r2 with
        | .ok (xs, r3) => .ok (v :: xs, r3)
        | .error e => .error e
      | ']' :: r2 => .ok ([v], r2)
      | _ => .error .jsonDecodeError

def parseObjItems : Nat → List Char → Except PyErr (List (String × PyVal) × List Char)
  | 0, _ => .error .jsonDecodeError
  | fuel + 1, cs =>
    match skipWs cs with
    | c :: r =>
      if c = quoteChar then
        match parseStrRest r "" with
        | .error e => .error e
        | .ok (k, r2) =>
          match skipWs r2 with
          | ':' :: r3 =>
            match parseVal fuel r3 with
            | .error e => .error e
            | .ok (v, r4) =>
              match skipWs r4 with
              | ',' :: r5 =>
                match parseObjItems fuel r5 with
                | .ok (xs, r6) => .ok ((k, v) :: xs, r6)
                | .error e => .error e
              | d :: r5 =>
                if d = rbraceChar then .ok ([(k, v)], r5)
                else .error .jsonDecodeError
              | [] => .error .jsonDecodeError
          | _ => .error .jsonDecodeError
      else .error .jsonDecodeError
    | [] => .error .jsonDecodeError
end

/-- Model of `ORJSONSerializer.encode` (tools.py line 16). -/
def ORJSONSerializer.encode (v : PyVal) : String := encodeJson v

/-- Model of `ORJSONSerializer.decode` (tools.py line 23): `orjson.loads`; raises
`jsonDecodeError` on malformed input (nothing in the source catches it). -/
def ORJSONSerializer.decode (s : String) : Except PyErr PyVal :=
  match parseVal (s.length + 1) s.data with
  | .ok (v, rest) => if skipWs rest = [] then .ok v else .error .jsonDecodeError
  | .error e => .error e

/-! ## Redis client model

The `aioredis.Redis` client is modelled as a string key/value store plus a
reachability flag; every operation that reaches the client (including a
failed attempt against an unreachable backend) is appended to `trace`, so
that "performed without contacting the backend" is a statement about the
trace. -/

/-- A Redis command issued to the client. -/
inductive RedisCmd where
  | getCmd (key : String)
  | setCmd (key : String) (value : String) (ttl : Option Nat)
  | delCmd (key : String)
deriving Repr, DecidableEq

/-- State of the modelled Redis backend. -/
structure RedisState where
  data : List (String × String)
  reachable : Bool
  trace : List RedisCmd
deriving Repr

/-- Model of `client.get(key)`: raises `ConnectionError` when unreachable. -/
def clientGet (st : RedisState) (k : String) : Except PyErr (Option String) × RedisState :=
  let st' := { st with trace := st.trace ++ [RedisCmd.getCmd k] }
  if st.reachable then (.ok (alookup st.data k), st')
  else (.error .connectionError, st')

/-- Model of `client.set(key, value, ttl)`: stores the serialized value.  TTL-based
expiry on the Redis side is not modelled (no claim depends on it); the ttl
is recorded in the trace. -/
def clientSet (st : RedisState) (k v : String) (ttl : Option Nat) :
    Except PyErr Unit × RedisState :=
  let tr := st.trace ++ [RedisCmd.setCmd k v ttl]
  if st.reachable then (.ok (), { st with data := aupsert st.data k v, trace := tr })
  else (.error .connectionError, { st with trace := tr })

/-- Model of `client.delete(key)`: removing a missing key is not an error in Redis. -/
def clientDel (st : RedisState) (k : String) : Except PyErr Unit × RedisState :=
  let tr := st.trace ++ [RedisCmd.delCmd k]
  if st.reachable then (.ok (), { st with data := aremove st.data k, trace := tr })
  else (.error .connectionError, { st with trace := tr })

/-! ## `RedisCache` (caching.py lines 48-92)

The constructor argument `prefix` is modelled by the parameter `pfx`
(the identifier `prefix` is reserved in this development). -/

/-- Model of `if self._prefix: key = f"{self._prefix}:{key}"` (an empty-string
namespace is falsy and applies no prefixing). -/
def applyPfx (pfx : Option String) (key : String) : String :=
  match pfx with
  | some p => if p = "" then key else p ++ ":" ++ key
  | Option.none => key

/-- Model of `RedisCache.get` (caching.py lines 62-72).  Result `.ok PyVal.none`
models Python returning `None`; only `ConnectionError` is caught, so a
decode failure surfaces as `.error`. -/
def RedisCache.get (pfx : Option String) (st : RedisState) (key : String) :
    Except PyErr PyVal × RedisState :=
  if key = "" then (.ok .none, st)
  else
    let k := applyPfx pfx key
    match clientGet st k with
    | (.ok v?, st') =>
      match v? with
      | some s =>
        if s ≠ "" then
          match ORJSONSerializer.decode s with
          | .ok v => (.ok v, st')
          | .error e => (.error e, st')
        else (.ok .none, st')
      | Option.none => (.ok .none, st')
    | (.error _, st') => (.ok .none, st')

/-- Model of `RedisCache.set` (caching.py lines 74-82): no-op on an empty key or a
falsy value; `ConnectionError` is swallowed. -/
def RedisCache.set (pfx : Option String) (st : RedisState) (key : String)
    (v : PyVal) (ttl : Option Nat) : RedisState :=
  if key = "" || !v.truthy then st
  else
    let k := applyPfx pfx key
    (clientSet st k (ORJSONSerializer.encode v) ttl).2

/-- Model of `RedisCache.delete` (caching.py lines 84-92): no-op on an empty key;
`ConnectionError` is swallowed. -/
def RedisCache.delete (pfx : Option String) (st : RedisState) (key : String) :
    RedisState :=
  if key = "" then st
  else (clientDel st (applyPfx pfx key)).2

/-! ## `InMemoryCache` (caching.py lines 18-45)

The store maps a key to `(value, expires_at)`; `now` models `time.time()`.
The `asyncio.Lock` serializes the bodies, which the sequential functional
model reflects by construction. -/

/-- The in-memory store: key ↦ (value, optional absolute expiry). -/
def IMStore : Type := List (String × (PyVal × Option Nat))

/-- Model of `InMemoryCache.get` (caching.py lines 27-36): returns the value if
unexpired, otherwise removes the expired entry and returns `None`.  The
second component is the store after the call. -/
def InMemoryCache.get (store : IMStore) (now : Nat) (key : String) :
    PyVal × IMStore :=
  match alookup store key with
  | some (v, Option.none) => (v, store)
  | some (v, some exp) =>
    if now < exp then (v, store) else (PyVal.none, aremove store key)
  | Option.none => (PyVal.none, store)

/-- Model of `InMemoryCache.set` (caching.py lines 38-41):
`expires_at = time.time() + ttl if ttl else None` — a `ttl` of `0` is falsy
and yields no expiry. -/
def InMemoryCache.set (store : IMStore) (now : Nat) (key : String)
    (v : PyVal) (ttl : Option Nat) : IMStore :=
  let expiresAt : Option Nat :=
    match ttl with
    | some t => if t = 0 then Option.none else some (now + t)
    | Option.none => Option.none
  aupsert store key (v, expiresAt)

/-- Model of `InMemoryCache.delete` (caching.py lines 43-45): `del self.store[key]`
raises `KeyError` when the key is absent. -/
def InMemoryCache.delete (store : IMStore) (key : String) :
    Except PyErr IMStore :=
  match alookup store key with
  | some _ => .ok (aremove store key)
  | Option.none => .error .keyError

/-! ## The memoizing decorator `cached` (caching.py lines 103-158)

The wrapper is modelled against the in-memory backend (the module's default
global `cache`).  A wrapped computation is an `Except PyErr PyVal`: `.error`
models the computation raising.  The result triple is
(value returned or error raised, store after the call, whether the wrapped
computation was actually invoked). -/

/-- Python truthiness of an optional string argument (`if cache_key:`,
`if namespace:`). -/
def optTruthy : Option String → Bool
  | some s => s ≠ ""
  | Option.none => false

/-- Model of `default_key_builder` (caching.py lines 103-105), which formats
`f"{func.__name__}:{args}:{kwargs}"`.  The source then takes the MD5
hexdigest of this string; the digest step is modelled by the formatted
string itself (an injective stand-in for the hash). -/
def default_key_builder (fname argsRepr kwargsRepr : String) : String :=
  fname ++ ":" ++ argsRepr ++ ":" ++ kwargsRepr

/-- Key selection of `cached.wrapper` (caching.py lines 141-149): an
explicit truthy `cache_key` wins, else a supplied `key_builder`, else
`default_key_builder`; a truthy `namespace` is prepended. -/
def cachedSelectKey (cache_key : Option String)
    (key_builder : Option (String → String → String → String))
    (ns : Option String) (fname argsRepr kwargsRepr : String) : String :=
  let key :=
    if optTruthy cache_key then cache_key.getD ""
    else
      match key_builder with
      | some kb => kb fname argsRepr kwargsRepr
      | Option.none => default_key_builder fname argsRepr kwargsRepr
  match ns with
  | some n => if n = "" then key else n ++ ":" ++ key
  | Option.none => key

/-- Caching logic of `cached.wrapper` (caching.py lines 151-156) over the
module-default in-memory global `cache`: look up the key; on `None`, invoke
the computation and store its result (a raised error propagates before any
store write).  The Boolean records whether the wrapped computation was
invoked.  See `cachedWrapperRedis` for the backend the application installs
at startup. -/
def cachedWrapper (key : String) (ttl : Option Nat) (comp : Except PyErr PyVal)
    (store : IMStore) (now : Nat) : Except PyErr PyVal × IMStore × Bool :=
  let (value, store1) := InMemoryCache.get store now key
  if value.isNone then
    match comp with
    | .error e => (.error e, store1, true)
    | .ok r => (.ok r, InMemoryCache.set store1 now key r ttl, true)
  else (.ok value, store1, false)

/-- Caching logic of `cached.wrapper` (caching.py lines 151-156) over the
Redis backend, which the application makes the global `cache` at startup
via `set_redis_cache(redis, settings.APP_NAME)` (app/__init__.py line 70).
Identical wrapper logic against `RedisCache`; a decode failure inside
`cache.get` propagates before the computation is invoked. -/
def cachedWrapperRedis (pfx : Option String) (key : String) (ttl : Option Nat)
    (comp : Except PyErr PyVal) (st : RedisState) :
    Except PyErr PyVal × RedisState × Bool :=
  match RedisCache.get pfx st key with
  | (.error e, st1) => (.error e, st1, false)
  | (.ok value, st1) =>
    if value.isNone then
      match comp with
      | .error e => (.error e, st1, true)
      | .ok r => (.ok r, RedisCache.set pfx st1 key r ttl, true)
    else (.ok value, st1, false)

/-! ## `SessionMiddleware` (middlewares.py lines 83-157) -/

/-- Constructor configuration of `SessionMiddleware` (lines 86-106). -/
structure SessionConfig where
  sessionCookie : String
  maxAge : Option Nat
  path : String
  sameSite : String
  httpsOnly : Bool
  domain : Option String

/-- The default construction: cookie `session`, 14 days max-age, path `/`,
samesite `lax`, no https-only, no domain. -/
def defaultSessionConfig : SessionConfig :=
  { sessionCookie := "session", maxAge := some (14 * 24 * 60 * 60),
    path := "/", sameSite := "lax", httpsOnly := false,
    domain := Option.none }

/-- Model of `self.security_flags` as assembled in the constructor (lines 102-106). -/
def securityFlags (cfg : SessionConfig) : String :=
  "httponly; samesite=" ++ cfg.sameSite
    ++ (if cfg.httpsOnly then "; secure" else "")
    ++ (match cfg.domain with
        | some d => "; domain=" ++ d
        | Option.none => "")

/-- Model of `f"Max-Age={self.max_age}; " if self.max_age else ""` (line 139);
a max-age of `0` is falsy and omits the attribute. -/
def maxAgeSegment (maxAge : Option Nat) : String :=
  match maxAge with
  | some m => if m = 0 then "" else "Max-Age=" ++ toString m ++ "; "
  | Option.none => ""

/-- Outcome of the request-entry phase (lines 113-126): the hydrated
`scope["session"]`, the `initial_session_was_empty` flag, and the cookie
token `value` (`Option.none` when no session cookie was presented). -/
structure SessionEntryResult where
  session : PyVal
  initialEmpty : Bool
  value : Option String
deriving Repr

/-- Request-entry phase of `SessionMiddleware.__call__` (lines 113-126).
The middleware's cache is `RedisCache(redis, prefix=session_cookie)`
(line 98).  A decode failure inside `cache.get` propagates out. -/
def sessionEntry (cfg : SessionConfig) (st : RedisState)
    (cookie : Option String) :
    Except PyErr (SessionEntryResult × RedisState) :=
  match cookie with
  | some v =>
    match RedisCache.get (some cfg.sessionCookie) st v with
    | (.ok data, st') =>
      if data.truthy then
        .ok ({ session := data, initialEmpty := false, value := some v }, st')
      else
        .ok ({ session := PyVal.dict [], initialEmpty := true, value := some v }, st')
    | (.error e, _) => .error e
  | Option.none =>
    .ok ({ session := PyVal.dict [], initialEmpty := true, value := Option.none }, st)

/-- Model of `token = value or secrets.token_urlsafe(32)` (line 132): an absent or
empty (falsy) cookie value mints the fresh random token. -/
def chooseToken (value : Option String) (fresh : String) : String :=
  match value with
  | some v => if v = "" then fresh else v
  | Option.none => fresh

/-- The `send_wrapper` action on an `http.response.start` message
(lines 128-155): exactly one of persist-and-set-cookie, delete-and-expire-
cookie, or no action, selected by the final session mapping and the
`initial_session_was_empty` flag.  `fresh` models `secrets.token_urlsafe(32)`
and `headers` the response headers of the message. -/
def sendWrapperStart (cfg : SessionConfig) (st : RedisState) (session : PyVal)
    (initialEmpty : Bool) (value : Option String) (fresh : String)
    (headers : List (String × String)) :
    RedisState × List (String × String) :=
  if session.truthy then
    let token := chooseToken value fresh
    let st' := RedisCache.set (some cfg.sessionCookie) st token session cfg.maxAge
    let hv := cfg.sessionCookie ++ "=" ++ token ++ "; path=" ++ cfg.path
      ++ "; " ++ maxAgeSegment cfg.maxAge ++ securityFlags cfg
    (st', headers ++ [("Set-Cookie", hv)])
  else if !initialEmpty then
    let st' := RedisCache.delete (some cfg.sessionCookie) st (value.getD "")
    let hv := cfg.sessionCookie ++ "=null; path=" ++ cfg.path
      ++ "; expires=Thu, 01 Jan 1970 00:00:00 GMT; " ++ securityFlags cfg
    (st', headers ++ [("Set-Cookie", hv)])
  else (st, headers)

/-- How `SessionMiddleware.__call__` dispatches on the scope type. -/
inductive SessionDispatch where
  /-- `await self.app(scope, receive, send)` with nothing touched. -/
  | passthrough
  /-- The connection is handled: the entry phase runs and the send is
  wrapped. -/
  | handled (entry : Except PyErr (SessionEntryResult × RedisState))
deriving Repr

/-- The scope-type dispatch of `SessionMiddleware.__call__` (lines
108-126): scope types other than `http` and `websocket` pass through
untouched; both `http` and `websocket` scopes are handled. -/
def SessionMiddleware.call (cfg : SessionConfig) (st : RedisState)
    (scopeType : String) (cookie : Option String) : SessionDispatch :=
  if scopeType ≠ "http" ∧ scopeType ≠ "websocket" then .passthrough
  else .handled (sessionEntry cfg st cookie)

/-! ## Association-list lemmas -/

theorem alookup_aupsert_self {α : Type} (l : List (String × α)) (k : String) (v : α) :
    alookup (aupsert l k v) k = some v := by
  simp [aupsert, alookup]

theorem alookup_aremove_ne {α : Type} (l : List (String × α)) (k k' : String)
    (h : k' ≠ k) : alookup (aremove l k) k' = alookup l k' := by
  induction l with
  | nil => rfl
  | cons p t ih =>
    obtain ⟨a, b⟩ := p
    by_cases hak : a = k
    · have hak' : a ≠ k' := by rw [hak]; exact fun hc => h hc.symm
      have hkk' : k ≠ k' := fun hc => h hc.symm
      simp [aremove, alookup, hak, hak', hkk', ih]
    · by_cases hak' : a = k'
      · simp [aremove, alookup, hak, hak', h]
      · simp [aremove, alookup, hak, hak', ih]

theorem alookup_aupsert_ne {α : Type} (l : List (String × α)) (k k' : String) (v : α)
    (h : k' ≠ k) : alookup (aupsert l k v) k' = alookup l k' := by
  have hk : k ≠ k' := fun hc => h hc.symm
  simp [aupsert, alookup, hk]
  exact alookup_aremove_ne l k k' h

theorem alookup_aremove_self {α : Type} (l : List (String × α)) (k : String) :
    alookup (aremove l k) k = Option.none := by
  induction l with
  | nil => rfl
  | cons p t ih =>
    obtain ⟨a, b⟩ := p
    by_cases hak : a = k
    · simp [aremove, hak, ih]
    · simp [aremove, alookup, hak, ih]

theorem aremove_of_alookup_none {α : Type} (l : List (String × α)) (k : String)
    (h : alookup l k = Option.none) : aremove l k = l := by
  induction l with
  | nil => rfl
  | cons p t ih =>
    obtain ⟨a, b⟩ := p
    by_cases hak : a = k
    · simp [alookup, hak] at h
    · simp [alookup, hak] at h
      simp [aremove, hak, ih h]

theorem inmemory_get_after_set (store : IMStore) (now : Nat) (key : String)
    (v : PyVal) (ttl : Option Nat) :
    (InMemoryCache.get (InMemoryCache.set store now key v ttl) now key).1 = v := by
  cases ttl with
  | none => simp [InMemoryCache.set, InMemoryCache.get, alookup_aupsert_self]
  | some t =>
    by_cases ht : t = 0
    · simp [InMemoryCache.set, ht, InMemoryCache.get, alookup_aupsert_self]
    · have hlt : now < now + t := by omega
      simp [InMemoryCache.set, ht, InMemoryCache.get, alookup_aupsert_self, hlt]

theorem inmemory_get_miss_persists (store : IMStore) (now now' : Nat) (key : String)
    (h : (InMemoryCache.get store now key).1 = PyVal.none) :
    (InMemoryCache.get (InMemoryCache.get store now key).2 now' key).1 = PyVal.none := by
  rcases hl : alookup store key with _ | ⟨v, exp⟩
  · simp [InMemoryCache.get, hl]
  · cases exp with
    | none =>
      simp [InMemoryCache.get, hl] at h ⊢
      exact h
    | some x =>
      by_cases hlt : now < x
      · simp [InMemoryCache.get, hl, hlt] at h ⊢
        by_cases hlt' : now' < x
        · simp [hlt', h]
        · simp [hlt', alookup_aremove_self]
      · simp [InMemoryCache.get, hl, hlt, alookup_aremove_self]

theorem inmemory_get_fst_congr (s1 s2 : IMStore) (now : Nat) (key : String)
    (h : alookup s1 key = alookup s2 key) :
    (InMemoryCache.get s1 now key).1 = (InMemoryCache.get s2 now key).1 := by
  rcases hl : alookup s2 key with _ | ⟨v, exp⟩ <;>
    rw [hl] at h
  · simp [InMemoryCache.get, hl, h]
  · cases exp with
    | none => simp [InMemoryCache.get, hl, h]
    | some x =>
      by_cases hlt : now < x <;> simp [InMemoryCache.get, hl, h, hlt]

theorem alookup_inmemory_get_snd_ne (store : IMStore) (now : Nat) (k1 k2 : String)
    (h : k2 ≠ k1) :
    alookup (InMemoryCache.get store now k1).2 k2 = alookup store k2 := by
  rcases hl : alookup store k1 with _ | ⟨v, exp⟩
  · simp [InMemoryCache.get, hl]
  · cases exp with
    | none => simp [InMemoryCache.get, hl]
    | some x =>
      by_cases hlt : now < x
      · simp [InMemoryCache.get, hl, hlt]
      · simp [InMemoryCache.get, hl, hlt, alookup_aremove_ne store k1 k2 h]

/-- C2: for the in-memory cache and every `ttl > 0`, a
`set(key, value, ttl)` followed immediately by `get(key)` returns the value
(store untouched); once the current time is at or past the expiry instant
`now + ttl`, `get(key)` returns `None` and that `get` removes the expired
entry from the store. -/
theorem inmemory_ttl_correctness (store : IMStore) (key : String) (v : PyVal)
    (ttl now : Nat) (httl : 0 < ttl) :
    InMemoryCache.get (InMemoryCache.set store now key v (some ttl)) now key
      = (v, InMemoryCache.set store now key v (some ttl)) ∧
    ∀ t, now + ttl ≤ t →
      (InMemoryCache.get (InMemoryCache.set store now key v (some ttl)) t key).1
        = PyVal.none ∧
      alookup (InMemoryCache.get (InMemoryCache.set store now key v (some ttl)) t key).2
        key = Option.none := by
  have hne : ttl ≠ 0 := by omega
  have hs : InMemoryCache.set store now key v (some ttl)
      = aupsert store key (v, some (now + ttl)) := by
    simp [InMemoryCache.set, hne]
  have hl := alookup_aupsert_self store key (v, some (now + ttl))
  constructor
  · have hlt : now < now + ttl := by omega
    rw [hs]
    simp [InMemoryCache.get, hl, hlt]
  · intro t ht
    have hnlt : ¬ t < now + ttl := by omega
    rw [hs]
    simp [InMemoryCache.get, hl, hnlt, alookup_aremove_self]

theorem inmemory_ttl_correctness_witness :
    (0 < 5) ∧
    InMemoryCache.get (InMemoryCache.set [] 0 "k" (PyVal.int 7) (some 5)) 0 "k"
      = (PyVal.int 7, InMemoryCache.set [] 0 "k" (PyVal.int 7) (some 5)) ∧
    (InMemoryCache.get (InMemoryCache.set [] 0 "k" (PyVal.int 7) (some 5)) 9 "k").1
      = PyVal.none ∧
    alookup
      (InMemoryCache.get (InMemoryCache.set [] 0 "k" (PyVal.int 7) (some 5)) 9 "k").2
      "k" = Option.none := by
  have h := inmemory_ttl_correctness [] "k" (PyVal.int 7) 5 0 (by decide)
  exact ⟨by decide, h.1, (h.2 9 (by omega)).1, (h.2 9 (by omega)).2⟩

theorem rediscache_get_miss (pfx : Option String) (st : RedisState) (key : String)
    (h : alookup st.data (applyPfx pfx key) = Option.none) :
    (RedisCache.get pfx st key).1 = .ok PyVal.none := by
  by_cases hk : key = ""
  · simp [RedisCache.get, hk]
  · cases hr : st.reachable
    · simp [RedisCache.get, hk, clientGet, hr]
    · simp [RedisCache.get, hk, clientGet, hr, h]

/-- C3 counterexample: for the in-memory backend, `set(key, "")` does leave
a retrievable entry — the immediately following `get(key)` returns `""`,
not the absent sentinel `None`, refuting the claim for that backend. -/
theorem falsy_value_caching_counterexample :
    (InMemoryCache.get (InMemoryCache.set [] 0 "k" (PyVal.str "") (some 60)) 0 "k").1
      = PyVal.str "" ∧
    PyVal.str "" ≠ PyVal.none :=
  ⟨rfl, fun h => PyVal.noConfusion h⟩

/-- C3 (amended): only the Redis backend refuses falsy values — its `set`
leaves the backend state untouched (so a fresh key stays absent); the
in-memory backend stores falsy values as-is and the immediately following
`get` returns them. -/
theorem falsy_value_caching_amended (pfx : Option String) (st : RedisState)
    (store : IMStore) (key : String) (v : PyVal) (ttl : Option Nat) (now : Nat)
    (hfalsy : v.truthy = false) :
    RedisCache.set pfx st key v ttl = st ∧
    (alookup st.data (applyPfx pfx key) = Option.none →
      (RedisCache.get pfx (RedisCache.set pfx st key v ttl) key).1 = .ok PyVal.none) ∧
    (InMemoryCache.get (InMemoryCache.set store now key v ttl) now key).1 = v := by
  have h1 : RedisCache.set pfx st key v ttl = st := by
    simp [RedisCache.set, hfalsy]
  refine ⟨h1, ?_, inmemory_get_after_set store now key v ttl⟩
  intro h
  rw [h1]
  exact rediscache_get_miss pfx st key h

theorem falsy_value_caching_amended_witness :
    (PyVal.str "").truthy = false ∧
    RedisCache.set Option.none ⟨[], true, []⟩ "k" (PyVal.str "") Option.none
      = ⟨[], true, []⟩ ∧
    (RedisCache.get Option.none
      (RedisCache.set Option.none ⟨[], true, []⟩ "k" (PyVal.str "") Option.none) "k").1
      = .ok PyVal.none ∧
    (InMemoryCache.get (InMemoryCache.set [] 0 "k" (PyVal.str "") Option.none) 0 "k").1
      = PyVal.str "" := by
  have h := falsy_value_caching_amended Option.none ⟨[], true, []⟩ [] "k"
    (PyVal.str "") Option.none 0 rfl
  exact ⟨rfl, h.1, h.2.1 rfl, h.2.2⟩

/-- C6 counterexample: the in-memory `delete` on a missing key raises
`KeyError` (`del self.store[key]`), refuting "never raises when the key is
missing". -/
theorem inmemory_delete_missing_counterexample :
    InMemoryCache.delete ([] : IMStore) "k" = .error PyErr.keyError := rfl

/-- C6 (amended): the Redis backend's `delete` removes the entry when
present, is a no-op otherwise, and never raises (connection failures are
swallowed; a missing key is not an error); the in-memory backend's
`delete` removes a present entry but raises `KeyError` on a missing key. -/
theorem cache_delete_amended (pfx : Option String) (st : RedisState)
    (key : String) (store : IMStore) (hkey : key ≠ "") :
    (st.reachable = true →
      (RedisCache.delete pfx st key).data = aremove st.data (applyPfx pfx key)) ∧
    (st.reachable = true → alookup st.data (applyPfx pfx key) = Option.none →
      (RedisCache.delete pfx st key).data = st.data) ∧
    (st.reachable = false → (RedisCache.delete pfx st key).data = st.data) ∧
    (∀ p, alookup store key = some p →
      InMemoryCache.delete store key = .ok (aremove store key)) ∧
    (alookup store key = Option.none →
      InMemoryCache.delete store key = .error PyErr.keyError) := by
  refine ⟨?_, ?_, ?_, ?_, ?_⟩
  · intro hr
    simp [RedisCache.delete, hkey, clientDel, hr]
  · intro hr hmiss
    simp [RedisCache.delete, hkey, clientDel, hr, aremove_of_alookup_none _ _ hmiss]
  · intro hr
    simp [RedisCache.delete, hkey, clientDel, hr]
  · intro p hp
    simp [InMemoryCache.delete, hp]
  · intro hmiss
    simp [InMemoryCache.delete, hmiss]

theorem cache_delete_amended_witness :
    ("a" : String) ≠ "" ∧
    (RedisCache.delete Option.none ⟨[("a", "x")], true, []⟩ "a").data = [] ∧
    InMemoryCache.delete [("a", (PyVal.int 1, Option.none))] "a" = .ok [] := by
  have h := cache_delete_amended Option.none ⟨[("a", "x")], true, []⟩ "a"
    [("a", (PyVal.int 1, Option.none))] (by decide)
  refine ⟨by decide, ?_, ?_⟩
  · have := h.1 rfl
    simpa using this
  · have := h.2.2.2.1 (PyVal.int 1, Option.none) rfl
    simpa using this

theorem cachedWrapper_miss (key : String) (ttl : Option Nat)
    (comp : Except PyErr PyVal) (store : IMStore) (now : Nat)
    (h : (InMemoryCache.get store now key).1 = PyVal.none) :
    cachedWrapper key ttl comp store now
      = match comp with
        | .error e => (.error e, (InMemoryCache.get store now key).2, true)
        | .ok r =>
          (.ok r, InMemoryCache.set (InMemoryCache.get store now key).2 now key r ttl,
            true) := by
  unfold cachedWrapper
  rcases hget : InMemoryCache.get store now key with ⟨value, store1⟩
  rw [hget] at h
  simp only at h
  subst h
  simp only [hget]
  cases comp <;> rfl

theorem cachedWrapper_hit (key : String) (ttl : Option Nat)
    (comp : Except PyErr PyVal) (store : IMStore) (now : Nat)
    (h : (InMemoryCache.get store now key).1.isNone = false) :
    cachedWrapper key ttl comp store now
      = (.ok (InMemoryCache.get store now key).1,
          (InMemoryCache.get store now key).2, false) := by
  unfold cachedWrapper
  rcases hget : InMemoryCache.get store now key with ⟨value, store1⟩
  rw [hget] at h
  simp only at h
  simp only [hget, h]
  simp

theorem default_key_builder_args_inj (f a1 a2 kw : String)
    (h : default_key_builder f a1 kw = default_key_builder f a2 kw) : a1 = a2 := by
  have hd := congrArg String.data h
  simp only [default_key_builder] at hd
  have hd2 : f.data ++ (":".data ++ (a1.data ++ (":".data ++ kw.data)))
      = f.data ++ (":".data ++ (a2.data ++ (":".data ++ kw.data))) := by
    simpa [List.append_assoc] using hd
  have h3 := List.append_cancel_left (List.append_cancel_left hd2)
  exact String.ext (List.append_cancel_right h3)

theorem alookup_cachedWrapper_snd_ne (key : String) (ttl : Option Nat)
    (comp : Except PyErr PyVal) (store : IMStore) (now : Nat) (k2 : String)
    (h : k2 ≠ key) :
    alookup (cachedWrapper key ttl comp store now).2.1 k2 = alookup store k2 := by
  by_cases hn : (InMemoryCache.get store now key).1.isNone = true
  · have hm : (InMemoryCache.get store now key).1 = PyVal.none := by
      rcases hv : (InMemoryCache.get store now key).1 <;> simp [hv, PyVal.isNone] at hn ⊢
    rw [cachedWrapper_miss key ttl comp store now hm]
    cases comp with
    | error e => exact alookup_inmemory_get_snd_ne store now key k2 h
    | ok r =>
      show alookup (InMemoryCache.set (InMemoryCache.get store now key).2 now key r ttl) k2
        = alookup store k2
      rw [show ∀ s : IMStore, ∀ x, InMemoryCache.set s now key x ttl
            = aupsert s key (x, match ttl with
                | some t => if t = 0 then Option.none else some (now + t)
                | Option.none => Option.none) from fun _ _ => rfl]
      rw [alookup_aupsert_ne _ _ _ _ h]
      exact alookup_inmemory_get_snd_ne store now key k2 h
  · have hn' : (InMemoryCache.get store now key).1.isNone = false := by
      simpa using hn
    rw [cachedWrapper_hit key ttl comp store now hn']
    exact alookup_inmemory_get_snd_ne store now key k2 h

/-- C4: if the wrapped computation raises, the memoizing wrapper propagates
the error unchanged and writes nothing to the cache (the store after the
call is exactly the store the lookup produced); consequently a computation
that raises on the first call and succeeds on a second call with the same
arguments is actually executed on both calls. -/
theorem cached_never_caches_errors (key : String) (ttl : Option Nat) (e : PyErr)
    (r : PyVal) (store : IMStore) (now now2 : Nat)
    (hmiss : (InMemoryCache.get store now key).1 = PyVal.none) :
    cachedWrapper key ttl (.error e) store now
      = (.error e, (InMemoryCache.get store now key).2, true) ∧
    (cachedWrapper key ttl (.ok r)
        (cachedWrapper key ttl (.error e) store now).2.1 now2).2.2 = true := by
  have h1 : cachedWrapper key ttl (.error e) store now
      = (.error e, (InMemoryCache.get store now key).2, true) :=
    cachedWrapper_miss key ttl (.error e) store now hmiss
  refine ⟨h1, ?_⟩
  have hstore : (cachedWrapper key ttl (.error e) store now).2.1
      = (InMemoryCache.get store now key).2 := by rw [h1]
  rw [hstore]
  have hmiss2 := inmemory_get_miss_persists store now now2 key hmiss
  rw [cachedWrapper_miss key ttl (.ok r) _ now2 hmiss2]

theorem cached_never_caches_errors_witness :
    (InMemoryCache.get ([] : IMStore) 0 "k").1 = PyVal.none ∧
    cachedWrapper "k" Option.none (.error PyErr.keyError) ([] : IMStore) 0
      = (.error PyErr.keyError, [], true) ∧
    (cachedWrapper "k" Option.none (.ok (PyVal.int 3))
        (cachedWrapper "k" Option.none (.error PyErr.keyError) ([] : IMStore) 0).2.1
        0).2.2 = true := by
  have h := cached_never_caches_errors "k" Option.none PyErr.keyError (PyVal.int 3)
    [] 0 0 rfl
  exact ⟨rfl, h.1, h.2⟩

/-- C5 counterexample: with a reachable backend holding an undecodable
payload under the requested key, `RedisCache.get` propagates the decode
error instead of treating it as a miss — only `ConnectionError` is caught. -/
theorem rediscache_get_decode_counterexample :
    (RedisCache.get Option.none ⟨[("k", "\x7b")], true, []⟩ "k").1
      = .error PyErr.jsonDecodeError ∧
    (Except.error PyErr.jsonDecodeError : Except PyErr PyVal) ≠ .ok PyVal.none :=
  ⟨rfl, fun h => Except.noConfusion h⟩

/-- C5 (amended): `RedisCache.get` returns absent (never raises) when the
backend is unreachable; a malformed stored payload, however, is not treated
as a miss — the decode error propagates to the caller (only connection
failures are swallowed). -/
theorem rediscache_get_error_amended (pfx : Option String) (st st2 : RedisState)
    (key s : String) (e : PyErr)
    (hunreach : st.reachable = false)
    (hreach : st2.reachable = true) (hkey : key ≠ "")
    (hdata : alookup st2.data (applyPfx pfx key) = some s) (hs : s ≠ "")
    (hdec : ORJSONSerializer.decode s = .error e) :
    (RedisCache.get pfx st key).1 = .ok PyVal.none ∧
    (RedisCache.get pfx st2 key).1 = .error e := by
  constructor
  · by_cases hk : key = ""
    · simp [RedisCache.get, hk]
    · simp [RedisCache.get, hk, clientGet, hunreach]
  · simp [RedisCache.get, hkey, clientGet, hreach, hdata, hs, hdec]

theorem rediscache_get_error_amended_witness :
    (RedisState.mk [] false []).reachable = false ∧
    (RedisState.mk [("k", "\x7b")] true []).reachable = true ∧
    ("k" : String) ≠ "" ∧
    ORJSONSerializer.decode "\x7b" = .error PyErr.jsonDecodeError ∧
    (RedisCache.get Option.none ⟨[], false, []⟩ "k").1 = .ok PyVal.none ∧
    (RedisCache.get Option.none ⟨[("k", "\x7b")], true, []⟩ "k").1
      = .error PyErr.jsonDecodeError := by
  have h := rediscache_get_error_amended Option.none ⟨[], false, []⟩
    ⟨[("k", "\x7b")], true, []⟩ "k" "\x7b" PyErr.jsonDecodeError rfl rfl
    (by decide) rfl (by decide) rfl
  exact ⟨rfl, rfl, by decide, rfl, h.1, h.2⟩

/-- C10: every `RedisCache` operation invoked with an empty-string key is a
guarded no-op performed without contacting the backend — `get` returns
`None` and the backend state (data, reachability, and the command trace,
which records every contact) is unchanged, for any configured namespace. -/
theorem rediscache_empty_key_noop (pfx : Option String) (st : RedisState)
    (v : PyVal) (ttl : Option Nat) :
    RedisCache.get pfx st "" = (.ok PyVal.none, st) ∧
    RedisCache.set pfx st "" v ttl = st ∧
    RedisCache.delete pfx st "" = st := by
  refine ⟨?_, ?_, ?_⟩ <;> simp [RedisCache.get, RedisCache.set, RedisCache.delete]

theorem chooseToken_ne_empty (value : Option String) (fresh : String)
    (h : fresh ≠ "") : chooseToken value fresh ≠ "" := by
  cases value with
  | none => simpa [chooseToken] using h
  | some v => by_cases hv : v = "" <;> simp [chooseToken, hv, h]

theorem rediscache_set_stores (pfx : Option String) (st : RedisState) (key : String)
    (v : PyVal) (ttl : Option Nat) (hk : key ≠ "") (hv : v.truthy = true)
    (hr : st.reachable = true) :
    alookup (RedisCache.set pfx st key v ttl).data (applyPfx pfx key)
      = some (ORJSONSerializer.encode v) := by
  simp [RedisCache.set, hk, hv, clientSet, hr, alookup_aupsert_self]

theorem rediscache_delete_removes (pfx : Option String) (st : RedisState)
    (key : String) (hk : key ≠ "") (hr : st.reachable = true) :
    alookup (RedisCache.delete pfx st key).data (applyPfx pfx key) = Option.none := by
  simp [RedisCache.delete, hk, clientDel, hr, alookup_aremove_self]

/-- C1: when response headers are finalized the middleware performs exactly
one of three actions, selected by the final session mapping and the
`initial_session_was_empty` flag: a non-empty session is stored in full
(its encoding) in the session store under the token — minted fresh if no
cookie token existed — and one `Set-Cookie` header carrying token, path,
max-age and security flags is appended; an empty session that was initially
non-empty deletes the old token's store entry and appends one `Set-Cookie`
header expiring the cookie at the epoch; an empty session that was
initially empty changes nothing — no store access, no header. -/
theorem session_response_trichotomy (cfg : SessionConfig) (st : RedisState)
    (session : PyVal) (initialEmpty : Bool) (value : Option String)
    (fresh : String) (headers : List (String × String))
    (hreach : st.reachable = true) (hfresh : fresh ≠ "") :
    (session.truthy = true →
      alookup (sendWrapperStart cfg st session initialEmpty value fresh headers).1.data
          (applyPfx (some cfg.sessionCookie) (chooseToken value fresh))
        = some (ORJSONSerializer.encode session) ∧
      (sendWrapperStart cfg st session initialEmpty value fresh headers).2
        = headers ++ [("Set-Cookie",
            cfg.sessionCookie ++ "=" ++ chooseToken value fresh ++ "; path=" ++ cfg.path
              ++ "; " ++ maxAgeSegment cfg.maxAge ++ securityFlags cfg)] ∧
      (value = Option.none → chooseToken value fresh = fresh)) ∧
    (session.truthy = false → initialEmpty = false →
      (sendWrapperStart cfg st session initialEmpty value fresh headers).2
        = headers ++ [("Set-Cookie",
            cfg.sessionCookie ++ "=null; path=" ++ cfg.path
              ++ "; expires=Thu, 01 Jan 1970 00:00:00 GMT; " ++ securityFlags cfg)] ∧
      (∀ v, value = some v → v ≠ "" →
        alookup (sendWrapperStart cfg st session initialEmpty value fresh headers).1.data
          (applyPfx (some cfg.sessionCookie) v) = Option.none)) ∧
    (session.truthy = false → initialEmpty = true →
      sendWrapperStart cfg st session initialEmpty value fresh headers
        = (st, headers)) := by
  refine ⟨?_, ?_, ?_⟩
  · intro hs
    have htok := chooseToken_ne_empty value fresh hfresh
    refine ⟨?_, ?_, ?_⟩
    · simp only [sendWrapperStart, hs, if_true]
      exact rediscache_set_stores (some cfg.sessionCookie) st (chooseToken value fresh)
        session cfg.maxAge htok hs hreach
    · simp [sendWrapperStart, hs]
    · intro hv; rw [hv]; rfl
  · intro hs hie
    refine ⟨by simp [sendWrapperStart, hs, hie], ?_⟩
    intro v hv hvne
    simp only [sendWrapperStart, hs, hie]
    simp only [Bool.not_false, if_true, if_false, Bool.false_eq_true]
    rw [hv]
    exact rediscache_delete_removes (some cfg.sessionCookie) st v hvne hreach
  · intro hs hie
    simp [sendWrapperStart, hs, hie]

theorem session_response_trichotomy_witness :
    (RedisState.mk [] true []).reachable = true ∧
    ("FRESH" : String) ≠ "" ∧
    (PyVal.dict [("user_id", PyVal.int 42)]).truthy = true ∧
    alookup (sendWrapperStart defaultSessionConfig ⟨[], true, []⟩
        (PyVal.dict [("user_id", PyVal.int 42)]) true Option.none "FRESH" []).1.data
        (applyPfx (some "session") (chooseToken Option.none "FRESH"))
      = some (ORJSONSerializer.encode (PyVal.dict [("user_id", PyVal.int 42)])) ∧
    (sendWrapperStart defaultSessionConfig ⟨[], true, []⟩
        (PyVal.dict [("user_id", PyVal.int 42)]) true Option.none "FRESH" []).2
      = [("Set-Cookie",
          "session=FRESH; path=/; Max-Age=1209600; httponly; samesite=lax")] := by
  have h := session_response_trichotomy defaultSessionConfig ⟨[], true, []⟩
    (PyVal.dict [("user_id", PyVal.int 42)]) true Option.none "FRESH" [] rfl (by decide)
  have h1 := h.1 rfl
  exact ⟨rfl, by decide, rfl, h1.1, h1.2.1.trans (by decide)⟩

/-- C7 counterexample: a request presenting cookie token `staletoken` that
is unknown to the store (a miss), ending with a non-empty session, does NOT
get a fresh token: the middleware persists the new session under
`session:staletoken` — the stale token from the cookie — and stores nothing
under the fresh token `FRESHTOKEN` it could have minted. -/
theorem session_stale_token_counterexample :
    sessionEntry defaultSessionConfig ⟨[], true, []⟩ (some "staletoken")
      = .ok ({ session := PyVal.dict [], initialEmpty := true,
               value := some "staletoken" },
             ⟨[], true, [RedisCmd.getCmd "session:staletoken"]⟩) ∧
    alookup (sendWrapperStart defaultSessionConfig
        ⟨[], true, [RedisCmd.getCmd "session:staletoken"]⟩
        (PyVal.dict [("user_id", PyVal.int 42)]) true (some "staletoken")
        "FRESHTOKEN" []).1.data "session:staletoken"
      = some "\x7b\"user_id\":42\x7d" ∧
    alookup (sendWrapperStart defaultSessionConfig
        ⟨[], true, [RedisCmd.getCmd "session:staletoken"]⟩
        (PyVal.dict [("user_id", PyVal.int 42)]) true (some "staletoken")
        "FRESHTOKEN" []).1.data "session:FRESHTOKEN"
      = Option.none :=
  ⟨rfl, rfl, rfl⟩

/-- C7 (amended): a fresh random token is minted only when the request
presented no session cookie (or an empty cookie value); when a cookie with
a token unknown to or expired in the store is presented (a miss) and the
request ends with a non-empty session, the middleware reuses that stale
token — the entry phase retains it and the response phase persists the new
session under it. -/
theorem session_token_reuse_amended (cfg : SessionConfig) (st : RedisState)
    (v fresh : String) (session : PyVal) (ie : Bool)
    (headers : List (String × String))
    (hv : v ≠ "") (hreach : st.reachable = true)
    (hmiss : alookup st.data (applyPfx (some cfg.sessionCookie) v) = Option.none)
    (hsess : session.truthy = true) :
    sessionEntry cfg st (some v)
      = .ok ({ session := PyVal.dict [], initialEmpty := true, value := some v },
             (clientGet st (applyPfx (some cfg.sessionCookie) v)).2) ∧
    chooseToken (some v) fresh = v ∧
    chooseToken Option.none fresh = fresh ∧
    chooseToken (some "") fresh = fresh ∧
    alookup (sendWrapperStart cfg st session ie (some v) fresh headers).1.data
        (applyPfx (some cfg.sessionCookie) v)
      = some (ORJSONSerializer.encode session) := by
  have htok : chooseToken (some v) fresh = v := by simp [chooseToken, hv]
  refine ⟨?_, htok, rfl, rfl, ?_⟩
  · simp [sessionEntry, RedisCache.get, hv, clientGet, hreach, hmiss, PyVal.truthy]
  · simp only [sendWrapperStart, hsess, if_true, htok]
    exact rediscache_set_stores (some cfg.sessionCookie) st v session cfg.maxAge
      hv hsess hreach

theorem session_token_reuse_amended_witness :
    ("staletoken" : String) ≠ "" ∧
    (RedisState.mk [] true []).reachable = true ∧
    alookup ([] : List (String × String)) (applyPfx (some "session") "staletoken")
      = Option.none ∧
    (PyVal.dict [("user_id", PyVal.int 42)]).truthy = true ∧
    chooseToken (some "staletoken") "FRESHTOKEN" = "staletoken" ∧
    alookup (sendWrapperStart defaultSessionConfig ⟨[], true, []⟩
        (PyVal.dict [("user_id", PyVal.int 42)]) true (some "staletoken")
        "FRESHTOKEN" []).1.data (applyPfx (some "session") "staletoken")
      = some (ORJSONSerializer.encode (PyVal.dict [("user_id", PyVal.int 42)])) := by
  have h := session_token_reuse_amended defaultSessionConfig ⟨[], true, []⟩
    "staletoken" "FRESHTOKEN" (PyVal.dict [("user_id", PyVal.int 42)]) true []
    (by decide) rfl rfl rfl
  exact ⟨by decide, rfl, rfl, rfl, h.2.1, h.2.2.2.2⟩

/-- C9 counterexample: a websocket connection — a long-lived bidirectional,
non-request/response connection — is NOT passed through unmodified: the
middleware handles it, and its entry phase accesses the session store (the
backend trace records the `GET` for the presented cookie token). -/
theorem session_websocket_counterexample :
    SessionMiddleware.call defaultSessionConfig ⟨[], true, []⟩ "websocket"
        (some "tok") ≠ SessionDispatch.passthrough ∧
    sessionEntry defaultSessionConfig ⟨[], true, []⟩ (some "tok")
      = .ok ({ session := PyVal.dict [], initialEmpty := true, value := some "tok" },
             ⟨[], true, [RedisCmd.getCmd "session:tok"]⟩) := by
  constructor
  · intro h
    rw [show SessionMiddleware.call defaultSessionConfig ⟨[], true, []⟩ "websocket"
          (some "tok")
        = SessionDispatch.handled
            (sessionEntry defaultSessionConfig ⟨[], true, []⟩ (some "tok")) from rfl] at h
    exact SessionDispatch.noConfusion h
  · rfl

/-- C9 (amended): the middleware passes a connection through to the wrapped
application untouched exactly when its scope type is neither `http` nor
`websocket`; both `http` and `websocket` connections are handled — the
session-hydration entry phase runs on them. -/
theorem session_scope_dispatch (cfg : SessionConfig) (st : RedisState)
    (ty : String) (cookie : Option String)
    (h1 : ty ≠ "http") (h2 : ty ≠ "websocket") :
    SessionMiddleware.call cfg st ty cookie = .passthrough ∧
    SessionMiddleware.call cfg st "http" cookie
      = .handled (sessionEntry cfg st cookie) ∧
    SessionMiddleware.call cfg st "websocket" cookie
      = .handled (sessionEntry cfg st cookie) := by
  refine ⟨by simp [SessionMiddleware.call, h1, h2], rfl, rfl⟩

theorem session_scope_dispatch_witness :
    ("lifespan" : String) ≠ "http" ∧ ("lifespan" : String) ≠ "websocket" ∧
    SessionMiddleware.call defaultSessionConfig ⟨[], true, []⟩ "lifespan"
        (some "tok") = .passthrough ∧
    SessionMiddleware.call defaultSessionConfig ⟨[], true, []⟩ "websocket"
        (some "tok")
      = .handled (sessionEntry defaultSessionConfig ⟨[], true, []⟩ (some "tok")) := by
  have h := session_scope_dispatch defaultSessionConfig ⟨[], true, []⟩ "lifespan"
    (some "tok") (by decide) (by decide)
  exact ⟨by decide, by decide, h.1, h.2.2⟩

theorem pyval_truthy_not_isNone (v : PyVal) (h : v.truthy = true) :
    v.isNone = false := by
  cases v <;> simp_all [PyVal.truthy, PyVal.isNone]

theorem encode_ne_empty_of_decode (r : PyVal)
    (h : ORJSONSerializer.decode (ORJSONSerializer.encode r) = .ok r) :
    ORJSONSerializer.encode r ≠ "" := by
  intro h0
  rw [h0] at h
  have hd : ORJSONSerializer.decode "" = .error PyErr.jsonDecodeError := rfl
  rw [hd] at h
  exact Except.noConfusion h

theorem rediscache_get_miss_eq (pfx : Option String) (st : RedisState) (key : String)
    (hk : key ≠ "") (h : alookup st.data (applyPfx pfx key) = Option.none) :
    RedisCache.get pfx st key
      = (.ok PyVal.none,
         { st with trace := st.trace ++ [RedisCmd.getCmd (applyPfx pfx key)] }) := by
  cases hr : st.reachable <;> simp [RedisCache.get, hk, clientGet, hr, h]

theorem rediscache_set_snd_reachable (pfx : Option String) (st : RedisState)
    (key : String) (v : PyVal) (ttl : Option Nat) :
    (RedisCache.set pfx st key v ttl).reachable = st.reachable := by
  by_cases hk : key = ""
  · simp [RedisCache.set, hk]
  · by_cases hv : v.truthy
    · cases hr : st.reachable <;> simp [RedisCache.set, hk, hv, clientSet, hr]
    · simp [RedisCache.set, hk, hv]

theorem rediscache_get_after_set (pfx : Option String) (st : RedisState) (key : String)
    (r : PyVal) (ttl : Option Nat) (hk : key ≠ "") (hr : st.reachable = true)
    (htr : r.truthy = true)
    (hdec : ORJSONSerializer.decode (ORJSONSerializer.encode r) = .ok r) :
    (RedisCache.get pfx (RedisCache.set pfx st key r ttl) key).1 = .ok r := by
  have hne := encode_ne_empty_of_decode r hdec
  have hst : alookup (RedisCache.set pfx st key r ttl).data (applyPfx pfx key)
      = some (ORJSONSerializer.encode r) :=
    rediscache_set_stores pfx st key r ttl hk htr hr
  have hre : (RedisCache.set pfx st key r ttl).reachable = true := by
    rw [rediscache_set_snd_reachable]; exact hr
  simp [RedisCache.get, hk, clientGet, hre, hst, hne, hdec]

theorem cachedWrapperRedis_miss (pfx : Option String) (key : String)
    (ttl : Option Nat) (comp : Except PyErr PyVal) (st : RedisState)
    (h : (RedisCache.get pfx st key).1 = .ok PyVal.none) :
    cachedWrapperRedis pfx key ttl comp st
      = match comp with
        | .error e => (.error e, (RedisCache.get pfx st key).2, true)
        | .ok r =>
          (.ok r, RedisCache.set pfx (RedisCache.get pfx st key).2 key r ttl,
            true) := by
  unfold cachedWrapperRedis
  rcases hg : RedisCache.get pfx st key with ⟨res, st1⟩
  rw [hg] at h
  simp only at h
  subst h
  simp only [hg]
  cases comp <;> rfl

theorem cachedWrapperRedis_hit (pfx : Option String) (key : String)
    (ttl : Option Nat) (comp : Except PyErr PyVal) (st : RedisState) (v : PyVal)
    (h : (RedisCache.get pfx st key).1 = .ok v) (hv : v.isNone = false) :
    cachedWrapperRedis pfx key ttl comp st
      = (.ok v, (RedisCache.get pfx st key).2, false) := by
  unfold cachedWrapperRedis
  rcases hg : RedisCache.get pfx st key with ⟨res, st1⟩
  rw [hg] at h
  simp only at h
  subst h
  simp only [hg, hv]
  simp

/-- C8 counterexample: under a fixed key, a computation whose result is
Python `None` executes twice on two invocations with identical arguments
(the stored `None` is indistinguishable from a miss on the default
in-memory backend); likewise, on the Redis backend the application installs
at startup, a falsy result (here `0`) is refused by `set` and the
computation executes twice — refuting "executes exactly once" for every
computation. -/
theorem cached_falsy_result_counterexample :
    (cachedWrapper "k" Option.none (.ok PyVal.none) ([] : IMStore) 0).2.2 = true ∧
    (cachedWrapper "k" Option.none (.ok PyVal.none)
        (cachedWrapper "k" Option.none (.ok PyVal.none) ([] : IMStore) 0).2.1 0).2.2
      = true ∧
    (cachedWrapperRedis (some "app") "k" Option.none (.ok (PyVal.int 0))
        ⟨[], true, []⟩).2.2 = true ∧
    (cachedWrapperRedis (some "app") "k" Option.none (.ok (PyVal.int 0))
        (cachedWrapperRedis (some "app") "k" Option.none (.ok (PyVal.int 0))
          ⟨[], true, []⟩).2.1).2.2 = true :=
  ⟨rfl, rfl, rfl, rfl⟩

/-- C8 (amended): under a fixed key, invoking the wrapper twice with
identical arguments executes the computation exactly once provided its
result is cacheable by the configured backend: not `None` for the module's
default in-memory cache, and truthy for the Redis cache the application
installs at startup via `set_redis_cache` — whose `set` refuses every falsy
value, so a falsy result (`None`, `0`, `""`, `[]`) is never cached there
and the computation re-executes on every call (the spec's own §4.2 edge
case).  With a different argument under default fingerprinting the keys
differ and the computation executes again. -/
theorem cached_memoization_amended (key : String) (ttl : Option Nat) (r rr rf : PyVal)
    (store store2 : IMStore) (now now2 : Nat)
    (comp2 comp3 comp4 comp5 : Except PyErr PyVal)
    (pfx : Option String) (st : RedisState) (fname a1 a2 kw : String)
    (hmiss : (InMemoryCache.get store now key).1 = PyVal.none)
    (hr : r.isNone = false) (hargs : a1 ≠ a2)
    (hmiss2 : (InMemoryCache.get store2 now2
        (cachedSelectKey Option.none Option.none Option.none fname a2 kw)).1
      = PyVal.none)
    (hkey : key ≠ "") (hreach : st.reachable = true)
    (hrmiss : alookup st.data (applyPfx pfx key) = Option.none)
    (hrr : rr.truthy = true)
    (hdec : ORJSONSerializer.decode (ORJSONSerializer.encode rr) = .ok rr)
    (hrf : rf.truthy = false) :
    (cachedWrapper key ttl (.ok r) store now).2.2 = true ∧
    (cachedWrapper key ttl (.ok r) store now).1 = .ok r ∧
    (cachedWrapper key ttl comp2 (cachedWrapper key ttl (.ok r) store now).2.1 now).2.2
      = false ∧
    (cachedWrapper key ttl comp2 (cachedWrapper key ttl (.ok r) store now).2.1 now).1
      = .ok r ∧
    (cachedWrapperRedis pfx key ttl (.ok rr) st).2.2 = true ∧
    (cachedWrapperRedis pfx key ttl (.ok rr) st).1 = .ok rr ∧
    (cachedWrapperRedis pfx key ttl comp4
        (cachedWrapperRedis pfx key ttl (.ok rr) st).2.1).2.2 = false ∧
    (cachedWrapperRedis pfx key ttl comp4
        (cachedWrapperRedis pfx key ttl (.ok rr) st).2.1).1 = .ok rr ∧
    (cachedWrapperRedis pfx key ttl (.ok rf) st).2.2 = true ∧
    (cachedWrapperRedis pfx key ttl comp5
        (cachedWrapperRedis pfx key ttl (.ok rf) st).2.1).2.2 = true ∧
    cachedSelectKey Option.none Option.none Option.none fname a1 kw
      ≠ cachedSelectKey Option.none Option.none Option.none fname a2 kw ∧
    (cachedWrapper (cachedSelectKey Option.none Option.none Option.none fname a2 kw) ttl
        comp3
        (cachedWrapper (cachedSelectKey Option.none Option.none Option.none fname a1 kw)
          ttl (.ok r) store2 now2).2.1 now2).2.2 = true := by
  have h1 : cachedWrapper key ttl (.ok r) store now
      = (.ok r, InMemoryCache.set (InMemoryCache.get store now key).2 now key r ttl,
          true) :=
    cachedWrapper_miss key ttl (.ok r) store now hmiss
  have hafter : (InMemoryCache.get
      (InMemoryCache.set (InMemoryCache.get store now key).2 now key r ttl) now key).1
      = r := inmemory_get_after_set _ now key r ttl
  have hhit : (InMemoryCache.get
      (InMemoryCache.set (InMemoryCache.get store now key).2 now key r ttl) now
      key).1.isNone = false := by rw [hafter]; exact hr
  have hsnd : (cachedWrapper key ttl (.ok r) store now).2.1
      = InMemoryCache.set (InMemoryCache.get store now key).2 now key r ttl := by
    rw [h1]
  have h2 := cachedWrapper_hit key ttl comp2
    (InMemoryCache.set (InMemoryCache.get store now key).2 now key r ttl) now hhit
  have hget1 : RedisCache.get pfx st key
      = (.ok PyVal.none,
         { st with trace := st.trace ++ [RedisCmd.getCmd (applyPfx pfx key)] }) :=
    rediscache_get_miss_eq pfx st key hkey hrmiss
  have hgm : (RedisCache.get pfx st key).1 = .ok PyVal.none := by rw [hget1]
  have hR1 : cachedWrapperRedis pfx key ttl (.ok rr) st
      = (.ok rr, RedisCache.set pfx (RedisCache.get pfx st key).2 key rr ttl, true) :=
    cachedWrapperRedis_miss pfx key ttl (.ok rr) st hgm
  have hGreach : (RedisCache.get pfx st key).2.reachable = true := by
    rw [hget1]; exact hreach
  have hRafter : (RedisCache.get pfx
      (RedisCache.set pfx (RedisCache.get pfx st key).2 key rr ttl) key).1 = .ok rr :=
    rediscache_get_after_set pfx (RedisCache.get pfx st key).2 key rr ttl hkey
      hGreach hrr hdec
  have hRsnd : (cachedWrapperRedis pfx key ttl (.ok rr) st).2.1
      = RedisCache.set pfx (RedisCache.get pfx st key).2 key rr ttl := by rw [hR1]
  have hR2 := cachedWrapperRedis_hit pfx key ttl comp4
    (RedisCache.set pfx (RedisCache.get pfx st key).2 key rr ttl) rr hRafter
    (pyval_truthy_not_isNone rr hrr)
  have hF1 : cachedWrapperRedis pfx key ttl (.ok rf) st
      = (.ok rf, RedisCache.set pfx (RedisCache.get pfx st key).2 key rf ttl, true) :=
    cachedWrapperRedis_miss pfx key ttl (.ok rf) st hgm
  have hFset : RedisCache.set pfx (RedisCache.get pfx st key).2 key rf ttl
      = (RedisCache.get pfx st key).2 := by
    simp [RedisCache.set, hrf]
  have hFdata : alookup ((RedisCache.get pfx st key).2).data (applyPfx pfx key)
      = Option.none := by rw [hget1]; exact hrmiss
  have hFm : (RedisCache.get pfx ((RedisCache.get pfx st key).2) key).1
      = .ok PyVal.none := rediscache_get_miss pfx _ key hFdata
  have hkeyne : cachedSelectKey Option.none Option.none Option.none fname a1 kw
      ≠ cachedSelectKey Option.none Option.none Option.none fname a2 kw :=
    fun hc => hargs (default_key_builder_args_inj fname a1 a2 kw hc)
  refine ⟨by rw [h1], by rw [h1], by rw [hsnd, h2], ?_, by rw [hR1], by rw [hR1],
    by rw [hRsnd, hR2], by rw [hRsnd, hR2], by rw [hF1], ?_, hkeyne, ?_⟩
  · rw [hsnd, h2]
    simpa using hafter
  · have hFsnd : (cachedWrapperRedis pfx key ttl (.ok rf) st).2.1
        = (RedisCache.get pfx st key).2 := by rw [hF1]; exact hFset
    rw [hFsnd, cachedWrapperRedis_miss pfx key ttl comp5 _ hFm]
    cases comp5 <;> rfl
  · have hlk : alookup (cachedWrapper
        (cachedSelectKey Option.none Option.none Option.none fname a1 kw) ttl (.ok r)
        store2 now2).2.1
        (cachedSelectKey Option.none Option.none Option.none fname a2 kw)
        = alookup store2
            (cachedSelectKey Option.none Option.none Option.none fname a2 kw) :=
      alookup_cachedWrapper_snd_ne _ ttl (.ok r) store2 now2 _ (Ne.symm hkeyne)
    have hm2 : (InMemoryCache.get (cachedWrapper
        (cachedSelectKey Option.none Option.none Option.none fname a1 kw) ttl (.ok r)
        store2 now2).2.1 now2
        (cachedSelectKey Option.none Option.none Option.none fname a2 kw)).1
        = PyVal.none := by
      rw [inmemory_get_fst_congr _ store2 now2 _ hlk]
      exact hmiss2
    rw [cachedWrapper_miss _ ttl comp3 _ now2 hm2]
    cases comp3 <;> rfl

theorem cached_memoization_amended_witness :
    (PyVal.int 1).isNone = false ∧
    (PyVal.int 5).truthy = true ∧
    (PyVal.int 0).truthy = false ∧
    ORJSONSerializer.decode (ORJSONSerializer.encode (PyVal.int 5)) = .ok (PyVal.int 5) ∧
    (cachedWrapper "k" Option.none (.ok (PyVal.int 1)) ([] : IMStore) 0).2.2 = true ∧
    (cachedWrapper "k" Option.none (.ok (PyVal.int 1))
        (cachedWrapper "k" Option.none (.ok (PyVal.int 1)) ([] : IMStore) 0).2.1 0).2.2
      = false ∧
    (cachedWrapperRedis (some "app") "k" Option.none (.ok (PyVal.int 5))
        ⟨[], true, []⟩).2.2 = true ∧
    (cachedWrapperRedis (some "app") "k" Option.none (.ok (PyVal.int 5))
        (cachedWrapperRedis (some "app") "k" Option.none (.ok (PyVal.int 5))
          ⟨[], true, []⟩).2.1).2.2 = false ∧
    (cachedWrapperRedis (some "app") "k" Option.none (.ok (PyVal.int 0))
        ⟨[], true, []⟩).2.2 = true ∧
    (cachedWrapperRedis (some "app") "k" Option.none (.ok (PyVal.int 0))
        (cachedWrapperRedis (some "app") "k" Option.none (.ok (PyVal.int 0))
          ⟨[], true, []⟩).2.1).2.2 = true ∧
    (cachedWrapper (cachedSelectKey Option.none Option.none Option.none "f" "(8,)" "")
        Option.none (.ok (PyVal.int 2))
        (cachedWrapper (cachedSelectKey Option.none Option.none Option.none "f" "(7,)" "")
          Option.none (.ok (PyVal.int 1)) ([] : IMStore) 0).2.1 0).2.2 = true := by
  have h := cached_memoization_amended "k" Option.none (PyVal.int 1) (PyVal.int 5)
    (PyVal.int 0) [] [] 0 0 (.ok (PyVal.int 1)) (.ok (PyVal.int 2)) (.ok (PyVal.int 5))
    (.ok (PyVal.int 0)) (some "app") ⟨[], true, []⟩ "f" "(7,)" "(8,)" "" rfl rfl
    (by decide) rfl (by decide) rfl rfl rfl rfl rfl
  exact ⟨rfl, rfl, rfl, rfl, h.1, h.2.2.1, h.2.2.2.2.1, h.2.2.2.2.2.2.1,
    h.2.2.2.2.2.2.2.2.1, h.2.2.2.2.2.2.2.2.2.1, h.2.2.2.2.2.2.2.2.2.2.2⟩
